import Mathlib

/-!
Verification development for the NGIAB data-preprocess forcing engine.

The Python modules `modules/data_processing/forcings.py`,
`modules/data_processing/zarr_utils.py` and
`modules/data_processing/dataset_utils.py` are shallowly embedded below:
pure numeric kernels become Lean functions over `ℚ` / `Nat` / `Int`,
file-system and shared-memory side effects become explicit event traces,
and IEEE-754 non-finite results are represented by an explicit sum type.
-/

namespace NGIAB

/-! ## Chunk planner: `get_index_chunks` (forcings.py, lines 131-156)

`num_chunks = ceil(array_memory_usage / free_memory)`;
`stride = max_index // num_chunks`; `chunk_start = range(0, max_index, stride)`;
`index_chunks = [(start, start + stride) for start in chunk_start]`.

`arrayBytes` is `data.nbytes` and `budget` is the effective memory budget
(`min(0.8 * available, 20 GiB)` in the source, abstracted to a parameter).
A Python `ZeroDivisionError` (`num_chunks = 0`) or `ValueError`
(`range` with step `0`) is modelled as `none`. -/

/-- ceil(arrayBytes / budget), as computed by `math.ceil` in the source. -/
def numChunks (arrayBytes budget : Nat) : Nat :=
  (arrayBytes + budget - 1) / budget

/-- Embedding of `get_index_chunks`; `maxIndex` is `data.shape[0]`
(the time length). -/
def get_index_chunks (maxIndex arrayBytes budget : Nat) :
    Option (List (Nat × Nat)) :=
  if budget = 0 then none
  else
    let n := numChunks arrayBytes budget
    if n = 0 then none
    else
      let stride := maxIndex / n
      if stride = 0 then none
      else
        some (((List.range ((maxIndex + stride - 1) / stride)).map
          (fun k => (k * stride, k * stride + stride))))

/-- A chunk `(s, e)` covers the time index `i` when `s ≤ i < e`. -/
def chunkCovers (i : Nat) (c : Nat × Nat) : Bool :=
  decide (c.1 ≤ i ∧ i < c.2)

/-- The chunk list covers `[0, T)` exactly once, with every chunk end
clamped to `T` (the property the claim asserts). -/
def coversExactlyClamped (T : Nat) (chunks : List (Nat × Nat)) : Prop :=
  (∀ i < T, chunks.countP (chunkCovers i) = 1) ∧
    ∀ c ∈ chunks, c.2 ≤ T

instance (T : Nat) (chunks : List (Nat × Nat)) :
    Decidable (coversExactlyClamped T chunks) := by
  unfold coversExactlyClamped
  exact inferInstance

/-! ## Weighted zonal mean: `weighted_sum_of_cells` (forcings.py, lines 44-74)
and `process_chunk_shared` (lines 199-246)

Grid values are rationals; the raster is time-major (`(time, x*y)` after the
reshape in `create_shared_memory`).  The numpy float division `result /=
sum_of_weights` is embedded with explicit IEEE-754 non-finite outcomes:
`0/0 = NaN`, `±q/0 = ±inf`; numpy emits a warning there, never an
exception. -/

/-- Outcome of a numpy floating-point division. -/
inductive IEEEVal where
  | val : ℚ → IEEEVal
  | nan : IEEEVal
  | posInf : IEEEVal
  | negInf : IEEEVal
deriving DecidableEq, Repr

/-- IEEE-754 division: finite quotient when the denominator is nonzero,
`NaN` for `0/0`, signed infinity otherwise. -/
def ieeeDiv (n d : ℚ) : IEEEVal :=
  if d = 0 then
    if n = 0 then IEEEVal.nan
    else if 0 < n then IEEEVal.posInf
    else IEEEVal.negInf
  else IEEEVal.val (n / d)

/-- Fancy-indexing gather `flat_raster[:, cell_ids]` restricted to one row. -/
def cellGather (row : List ℚ) (cellIds : List Nat) : List ℚ :=
  cellIds.map (fun c => row.getD c 0)

/-- Embedding of `weighted_sum_of_cells`: per timestep,
`sum(row[cell_ids] * factors) / sum(factors)`. -/
def weighted_sum_of_cells (flatRaster : List (List ℚ)) (cellIds : List Nat)
    (factors : List ℚ) : List IEEEVal :=
  flatRaster.map (fun row =>
    ieeeDiv (List.zipWith (· * ·) (cellGather row cellIds) factors).sum
      factors.sum)

/-- One catchment row group of the cell-weight table: its `divide_id`,
intersecting `cell_id`s and their `coverage` weights. -/
structure CatchmentWeights where
  divide_id : String
  cell_ids : List Nat
  coverage : List ℚ
deriving DecidableEq, Repr

/-- Embedding of `process_chunk_shared`: each catchment of the partition is
aggregated independently against the shared raster chunk. -/
def process_chunk_shared (raster : List (List ℚ))
    (chunk : List CatchmentWeights) : List (String × List IEEEVal) :=
  chunk.map (fun c =>
    (c.divide_id, weighted_sum_of_cells raster c.cell_ids c.coverage))

/-- Per-catchment series produced by processing the time chunks separately
(`compute_zonal_stats` writes one partial file per chunk, then concatenates
them along time in chunk-index order, lines 364-398). -/
def chunked_zonal_series (timeChunks : List (List (List ℚ)))
    (c : CatchmentWeights) : List IEEEVal :=
  (timeChunks.map
    (fun ch => weighted_sum_of_cells ch c.cell_ids c.coverage)).flatten

/-! ## Final output assembly: `write_outputs` (forcings.py, lines 417-497) -/

/-- Element type of a stored array. -/
inductive DType where
  | f32 : DType
  | f64 : DType
  | i32 : DType
  | i64 : DType
  | strT : DType
deriving DecidableEq, Repr

/-- One data variable of the final netCDF artifact: values are
`(catchment, time)` matrices. -/
structure OutVar where
  name : String
  dtype : DType
  units : Option String
  vals : List (List ℚ)
deriving DecidableEq, Repr

/-- The fixed `variables` rename table of `compute_zonal_stats`
(lines 326-335). -/
def renameTable : List (String × String) :=
  [("LWDOWN", "DLWRF_surface"), ("PSFC", "PRES_surface"),
   ("Q2D", "SPFH_2maboveground"), ("RAINRATE", "precip_rate"),
   ("SWDOWN", "DSWRF_surface"), ("T2D", "TMP_2maboveground"),
   ("U2D", "UGRD_10maboveground"), ("V2D", "VGRD_10maboveground")]

/-- `astype(np.int32)` wrap-around semantics. -/
def int32wrap (x : Int) : Int :=
  Int.emod (x + 2 ^ 31) (2 ^ 32) - 2 ^ 31

/-- The legacy-layout artifact written to `forcings.nc`. -/
structure FinalOutput where
  ids : List String
  idsDtype : DType
  timeVals : List (List Int)
  timeDtype : DType
  timeUnits : String
  dataVars : List OutVar
deriving DecidableEq, Repr

/-- Embedding of `write_outputs`.  Inputs: the merged per-variable
`(catchment, time)` matrices keyed by source variable name, the `units`
mapping extracted by `get_units`, the catchment id coordinate, and the time
coordinate in nanoseconds since epoch (xarray's `datetime64[ns]`).  A
missing `precip_rate` variable would raise a `KeyError` in
`add_APCP_SURFACE_to_dataset`, modelled as `none`. -/
def write_outputs (mergedVars : List (String × List (List ℚ)))
    (units : List (String × String)) (catchments : List String)
    (timesNs : List Int) : Option FinalOutput :=
  let vars0 := mergedVars.map (fun nv =>
    { name := nv.1, dtype := DType.f64, units := units.lookup nv.1,
      vals := nv.2 : OutVar })
  let vars1 := vars0.map (fun v =>
    { v with name := (renameTable.lookup v.name).getD v.name })
  match vars1.find? (fun v => v.name = "precip_rate") with
  | none => none
  | some precip =>
    let apcp : OutVar :=
      { name := "APCP_surface", dtype := DType.f64,
        units := some "mm h^-1",
        vals := precip.vals.map (fun row => row.map (fun q => q * 3600)) }
    let vars2 := vars1 ++ [apcp]
    let vars3 := vars2.map (fun v => { v with dtype := DType.f32 })
    let timeArr := timesNs.map (fun t => int32wrap (Int.fdiv t (10 ^ 9)))
    some { ids := catchments
           idsDtype := DType.strT
           timeVals := List.replicate catchments.length timeArr
           timeDtype := DType.i32
           timeUnits := "s"
           dataVars := vars3 }

/-! ## Time-range validation and the cache (zarr_utils.py, dataset_utils.py)

Datasets are projected to their time interval (endpoints as integers), their
`name` attribute and their variable names; that is all the cache-validation
code inspects. -/

/-- Metadata view of a dataset. -/
structure DsMeta where
  name : Option String
  tStart : Int
  tEnd : Int
  vars : List String
deriving DecidableEq, Repr

/-- Embedding of `validate_time_range` (zarr_utils.py lines 42-74 and
dataset_utils.py lines 47-79): clamp the requested endpoints to the
dataset's available range. -/
def validate_time_range (dsStart dsEnd s e : Int) : Int × Int :=
  (if s < dsStart then dsStart else s, if e > dsEnd then dsEnd else e)

/-- Time range produced by `clip_dataset_to_bounds`: validate, then select
`time=slice(start, end)` which intersects with the dataset's own range. -/
def clip_time_range (d0 d1 s e : Int) : Int × Int :=
  let se := validate_time_range d0 d1 s e
  (max d0 se.1, min d1 se.2)

/-- Embedding of `check_local_cache` (dataset_utils.py lines 209-256):
name check, then time-range check, then missing-variable check; any failure
returns `None` (and performs no file operation — the source deletes
nothing).  On success the cached data is clipped to the request. -/
def check_local_cache (cache : Option DsMeta) (reqS reqE : Int)
    (remote : DsMeta) : Option (Int × Int) :=
  match cache with
  | none => none
  | some c =>
    if c.name.isNone || remote.name.isNone then none
    else if c.name ≠ remote.name then none
    else if ¬ (c.tStart ≤ reqS ∧ reqE ≤ c.tEnd) then none
    else if (remote.vars.filter (fun v => ¬ c.vars.contains v)) ≠ [] then
      none
    else some (clip_time_range c.tStart c.tEnd reqS reqE)

/-- File-system operations performed by the modelled code. -/
inductive FileOp where
  | removeFile : String → FileOp
  | writeFile : String → FileOp
  | renameFile : String → String → FileOp
deriving DecidableEq, Repr

/-- File operations of one `save_dataset` call (dataset_utils.py lines
160-180): write `<target>.saving.nc`, then atomically rename it onto the
target. -/
def save_dataset_ops (targetPath : String) (tmpExists : Bool) :
    List FileOp :=
  (if tmpExists then [FileOp.removeFile (targetPath ++ ".saving.nc")]
   else [])
    ++ [FileOp.writeFile (targetPath ++ ".saving.nc"),
        FileOp.renameFile (targetPath ++ ".saving.nc") targetPath]

/-- Outcome of `save_and_clip_dataset` (dataset_utils.py lines 259-274). -/
inductive CacheOutcome where
  | fromCache : Int × Int → CacheOutcome
  | refetched : Int × Int → CacheOutcome
deriving DecidableEq, Repr

/-- Embedding of `save_and_clip_dataset`: serve from a validated cache, or
clip the remote dataset and cache it via `save_to_cache` (which calls
`save_dataset` twice when NaN interpolation is enabled, lines 183-206).
Returns the outcome and the file operations performed. -/
def save_and_clip_dataset (cache : Option DsMeta) (reqS reqE : Int)
    (remote : DsMeta) (cachePath : String) (tmpExists : Bool) :
    CacheOutcome × List FileOp :=
  match check_local_cache cache reqS reqE remote with
  | some r => (CacheOutcome.fromCache r, [])
  | none =>
    (CacheOutcome.refetched
        (clip_time_range remote.tStart remote.tEnd reqS reqE),
      save_dataset_ops cachePath tmpExists
        ++ save_dataset_ops cachePath false)

/-- Result of `get_forcing_data` (zarr_utils.py lines 140-200), projected to
its returned time range and its cache file effects. -/
structure GFDResult where
  outStart : Int
  outEnd : Int
  removedCache : Bool
  refetched : Bool
deriving DecidableEq, Repr

/-- The cached-variable normalization of `get_forcing_data` (lines 168-171):
drop `crs`, lowercase, replace `rainrate` with `precip`. -/
def normalizeCachedVars (vs : List String) : List String :=
  (vs.filter (fun v => v ≠ "crs")).map
    (fun v => (v.toLower).replace "rainrate" "precip")

/-- Embedding of `get_forcing_data`: if a cache file exists, test
range coverage (clamping the request to the remote store's range when the
test fails) and, when `forcing_vars` is non-empty, variable presence; on
success clip the cache, otherwise `os.remove` the cache file and refetch
the clipped remote store. -/
def get_forcing_data (cache : Option DsMeta) (store : DsMeta)
    (reqS reqE : Int) (forcingVars : List String) : GFDResult :=
  match cache with
  | none =>
    let r := clip_time_range store.tStart store.tEnd reqS reqE
    { outStart := r.1, outEnd := r.2, removedCache := false,
      refetched := true }
  | some c =>
    let rangeInCache := decide (c.tStart ≤ reqS ∧ reqE ≤ c.tEnd)
    let se :=
      if ¬ rangeInCache then
        validate_time_range store.tStart store.tEnd reqS reqE
      else (reqS, reqE)
    let cachedVars := normalizeCachedVars c.vars
    let missing := forcingVars.filter (fun v => ¬ cachedVars.contains v)
    let ok := rangeInCache && (forcingVars.isEmpty || missing.isEmpty)
    if ok then
      let r := clip_time_range c.tStart c.tEnd se.1 se.2
      { outStart := r.1, outEnd := r.2, removedCache := false,
        refetched := false }
    else
      let r := clip_time_range store.tStart store.tEnd se.1 se.2
      { outStart := r.1, outEnd := r.2, removedCache := true,
        refetched := true }

/-! ## Crash-safety model for file writes (C7)

A file system maps paths to a completeness flag (`true` = fully written).
`midStates` lists every state observable if the process crashes: before any
operation, after any prefix, or in the middle of a (non-atomic) plain
write, which leaves a partial file; `rename` and `remove` are atomic. -/

/-- Association-list file system: `(path, fully-written?)`. -/
def FS : Type := List (String × Bool)

instance : DecidableEq FS :=
  inferInstanceAs (DecidableEq (List (String × Bool)))

/-- Overwrite `p` with completeness `b`. -/
def setFile (fs : FS) (p : String) (b : Bool) : FS :=
  (p, b) :: fs.filter (fun q => q.1 ≠ p)

/-- Delete `p`. -/
def delFile (fs : FS) (p : String) : FS :=
  fs.filter (fun q => q.1 ≠ p)

/-- Contents at `p` (`none` = absent). -/
def lookupFile (fs : FS) (p : String) : Option Bool :=
  List.lookup p fs

/-- Effect of one completed file operation. -/
def runOp (fs : FS) : FileOp → FS
  | FileOp.writeFile p => setFile fs p true
  | FileOp.removeFile p => delFile fs p
  | FileOp.renameFile src dst =>
    match lookupFile fs src with
    | some b => setFile (delFile fs src) dst b
    | none => fs

/-- Every file-system state a crash can expose while running `ops`. -/
def midStates (fs : FS) : List FileOp → List FS
  | [] => [fs]
  | op :: rest =>
    fs :: (match op with
           | FileOp.writeFile p => [setFile fs p false]
           | _ => []) ++ midStates (runOp fs op) rest

/-- File operations of `compute_store` (zarr_utils.py lines 111-137):
remove a leftover `.downloading.nc` temp file, write the store to the temp
path, then `os.rename` it onto the cache path.  The temp path comes from
`cached_nc_path.with_suffix(".downloading.nc")`. -/
def compute_store_ops (fs : FS) (cachePath tmpPath : String) :
    List FileOp :=
  (if (lookupFile fs tmpPath).isSome then [FileOp.removeFile tmpPath]
   else [])
    ++ [FileOp.writeFile tmpPath, FileOp.renameFile tmpPath cachePath]

/-- File operations of the final write in `write_outputs` (forcings.py lines
489-497): `to_netcdf` directly onto `forcings.nc`, then unlink the temp
files. -/
def write_outputs_ops (outPath : String) (tmpFiles : List String) :
    List FileOp :=
  FileOp.writeFile outPath :: tmpFiles.map FileOp.removeFile

/-! ## Shared-memory lifecycle (C6)

Control-flow skeleton of one chunk iteration of `compute_zonal_stats`
(forcings.py lines 367-394) together with `create_shared_memory` (lines
159-196): allocate the region, copy the lazy slice into it, run the worker
pool, close and unlink.  There is no `try`/`finally`: an exception raised
by the copy loop or by `pool.map` propagates and skips the release calls. -/

inductive ShmEvent where
  | create : ShmEvent
  | copyChunk : ShmEvent
  | mapWorkers : ShmEvent
  | closeShm : ShmEvent
  | unlinkShm : ShmEvent
  | raiseExc : ShmEvent
deriving DecidableEq, Repr

/-- Event trace of one `(variable, chunk)` iteration; `copyFails` models an
exception while staging the data, `mapFails` an exception surfaced by
`pool.map`. -/
def process_one_chunk_events (copyFails mapFails : Bool) : List ShmEvent :=
  if copyFails then [ShmEvent.create, ShmEvent.raiseExc]
  else if mapFails then
    [ShmEvent.create, ShmEvent.copyChunk, ShmEvent.raiseExc]
  else
    [ShmEvent.create, ShmEvent.copyChunk, ShmEvent.mapWorkers,
     ShmEvent.closeShm, ShmEvent.unlinkShm]

/-! ## NaN interpolation (C10): `interpolate_nan_values`
(dataset_utils.py lines 116-156)

A variable is a dtype class (`numeric`) plus a value series in which `none`
is NaN.  The xarray library call `var.interpolate_na(dim, method,
fill_value)` is abstracted as the parameter `interpNA`. -/

/-- One data variable of a dataset. -/
structure NCVar where
  numeric : Bool
  vals : List (Option ℚ)
deriving DecidableEq, Repr

/-- Embedding of `interpolate_nan_values`: loop over all data variables,
skip non-numeric ones, skip ones without NaN, replace the rest with their
interpolation.  The `variables` parameter is accepted and never read, as in
the source. -/
def interpolate_nan_values (interpNA : List (Option ℚ) → List (Option ℚ))
    (dataset : List (String × NCVar)) (variableNames : Option (List String)) :
    List (String × NCVar) :=
  dataset.map (fun nv =>
    if nv.2.numeric && nv.2.vals.contains none then
      (nv.1, { nv.2 with vals := interpNA nv.2.vals })
    else nv)

/-! # Theorems -/

/-! ## C1: chunk planner coverage -/

/-- Among the stride-aligned chunks `[(k*s, k*s+s) for k in range n]`, a time
index `i < n*s` is covered by exactly one chunk, the one at `k = i/s`. -/
lemma countP_stride_chunks (s n i : Nat) (hs : 1 ≤ s) (hi : i < n * s) :
    ((List.range n).map (fun k => (k * s, k * s + s))).countP (chunkCovers i)
      = 1 := by
  have hcong : ∀ k ∈ List.range n,
      ((chunkCovers i ∘ fun k => (k * s, k * s + s)) k = true ↔
        (k == i / s) = true) := by
    intro k _
    simp only [Function.comp, chunkCovers, decide_eq_true_eq, beq_iff_eq]
    constructor
    · rintro ⟨h1, h2⟩
      exact (Nat.div_eq_of_lt_le h1 (by rwa [add_one_mul])).symm
    · rintro rfl
      refine ⟨Nat.div_mul_le_self i s, ?_⟩
      exact Nat.lt_div_mul_add (show 0 < s by omega)
  calc ((List.range n).map (fun k => (k * s, k * s + s))).countP
          (chunkCovers i)
      = (List.range n).countP (fun k => k == i / s) := by
        rw [List.countP_map]; exact List.countP_congr hcong
    _ = (List.range n).count (i / s) := rfl
    _ = 1 := List.count_eq_one_of_mem (List.nodup_range n)
        (List.mem_range.mpr ((Nat.div_lt_iff_lt_mul (by omega)).mpr hi))

/-- Ceiling division bound: `T ≤ ceil(T/s) * s`. -/
lemma le_ceil_div_mul (T s : Nat) (hT : 1 ≤ T) (hs : 1 ≤ s) :
    T ≤ ((T + s - 1) / s) * s := by
  have hq : (T + s - 1) / s = (T - 1) / s + 1 := by
    have he : T + s - 1 = (T - 1) + s := by omega
    rw [he, Nat.add_div_right _ (by omega)]
  have hlt := (Nat.div_lt_iff_lt_mul (show 0 < s by omega)).mp
    (show (T - 1) / s < (T - 1) / s + 1 by omega)
  rw [hq]
  omega

/-- `get_index_chunks` in closed form when no Python exception occurs. -/
lemma get_index_chunks_eq (T arrayBytes budget : Nat) (hB : 1 ≤ budget)
    (hn : 1 ≤ numChunks arrayBytes budget)
    (hs : 1 ≤ T / numChunks arrayBytes budget) :
    get_index_chunks T arrayBytes budget =
      some ((List.range
          ((T + T / numChunks arrayBytes budget - 1) /
            (T / numChunks arrayBytes budget))).map
        (fun k => (k * (T / numChunks arrayBytes budget),
          k * (T / numChunks arrayBytes budget) +
            T / numChunks arrayBytes budget))) := by
  unfold get_index_chunks
  rw [if_neg (by omega : ¬ budget = 0)]
  show (if numChunks arrayBytes budget = 0 then none else _) = _
  rw [if_neg (by omega : ¬ numChunks arrayBytes budget = 0)]
  show (if T / numChunks arrayBytes budget = 0 then none else _) = _
  rw [if_neg (by omega : ¬ T / numChunks arrayBytes budget = 0)]

/-- C1 counterexample: with time length 5 and a budget forcing 2 chunks, the
planner returns `[(0,2), (2,4), (4,6)]` — the final chunk's end is 6, not
clamped to 5, so the ranges do not cover `[0,5)` exactly. -/
theorem c1_chunks_not_clamped :
    get_index_chunks 5 2 1 = some [(0, 2), (2, 4), (4, 6)] ∧
      ¬ coversExactlyClamped 5 [(0, 2), (2, 4), (4, 6)] := by
  exact ⟨rfl, by decide⟩

/-- C1 (amended): for `T ≥ 1` and a budget giving `num_chunks ≤ T`, the
planner returns adjacent chunks starting at 0 that cover every index of
`[0,T)` exactly once; the final chunk's end is at least `T` but is not
clamped to it (it is `stride * ceil(T/stride)`). -/
theorem c1_chunk_planner_amended (T arrayBytes budget : Nat)
    (hT : 1 ≤ T) (hb : 1 ≤ arrayBytes) (hB : 1 ≤ budget)
    (hn : numChunks arrayBytes budget ≤ T) :
    ∃ chunks, get_index_chunks T arrayBytes budget = some chunks ∧
      chunks ≠ [] ∧
      (∀ i < T, chunks.countP (chunkCovers i) = 1) ∧
      (∀ h0 : 0 < chunks.length, (chunks.get ⟨0, h0⟩).1 = 0) ∧
      (∀ j, ∀ h : j + 1 < chunks.length,
        (chunks.get ⟨j, by omega⟩).2 = (chunks.get ⟨j + 1, h⟩).1) ∧
      (∀ h : chunks ≠ [], T ≤ (chunks.getLast h).2) := by
  have hB0 : 1 ≤ budget := hB
  have hn1 : 1 ≤ numChunks arrayBytes budget := by
    unfold numChunks
    rw [Nat.one_le_div_iff (by omega)]
    omega
  set s := T / numChunks arrayBytes budget with hs_def
  have hs1 : 1 ≤ s := by
    rw [hs_def, Nat.one_le_div_iff (by omega)]
    exact hn
  set m := (T + s - 1) / s with hm_def
  have hm1 : 1 ≤ m := by
    rw [hm_def, Nat.one_le_div_iff (by omega)]
    omega
  have hTm : T ≤ m * s := le_ceil_div_mul T s hT hs1
  refine ⟨(List.range m).map (fun k => (k * s, k * s + s)),
    get_index_chunks_eq T arrayBytes budget hB hn1 hs1, ?_, ?_, ?_, ?_, ?_⟩
  · have : ((List.range m).map (fun k => (k * s, k * s + s))).length = m := by
      simp
    intro hnil
    rw [hnil] at this
    simp at this
    omega
  · intro i hi
    exact countP_stride_chunks s m i hs1 (by omega)
  · intro h0
    simp [List.get_eq_getElem, List.getElem_map, List.getElem_range]
  · intro j h
    have hlen : ((List.range m).map (fun k => (k * s, k * s + s))).length
        = m := by simp
    rw [List.get_eq_getElem, List.get_eq_getElem, List.getElem_map,
      List.getElem_map, List.getElem_range, List.getElem_range]
    exact (Nat.succ_mul j s).symm
  · intro h
    rw [List.getLast_eq_getElem]
    simp only [List.getElem_map, List.getElem_range, List.length_map,
      List.length_range]
    have hms : (m - 1) * s + s = m * s := by
      have h1 : (m - 1) * s = m * s - s := Nat.sub_one_mul m s
      have h2 : s ≤ m * s := Nat.le_mul_of_pos_left s (by omega)
      omega
    rw [hms]
    exact hTm

/-- C1 witness: the amended theorem evaluated at `T = 4`,
`array bytes = 2`, `budget = 1`. -/
theorem c1_chunk_planner_witness :
    ∃ chunks, get_index_chunks 4 2 1 = some chunks ∧
      chunks ≠ [] ∧
      (∀ i < 4, chunks.countP (chunkCovers i) = 1) ∧
      (∀ h0 : 0 < chunks.length, (chunks.get ⟨0, h0⟩).1 = 0) ∧
      (∀ j, ∀ h : j + 1 < chunks.length,
        (chunks.get ⟨j, by omega⟩).2 = (chunks.get ⟨j + 1, h⟩).1) ∧
      (∀ h : chunks ≠ [], 4 ≤ (chunks.getLast h).2) :=
  c1_chunk_planner_amended 4 2 1 (by decide) (by decide) (by decide)
    (by decide)

/-! ## C2: the coverage-weighted mean -/

/-- Sum of a pairwise product as a `Finset.range` sum. -/
lemma zipWith_mul_sum_eq (as bs : List ℚ) (n : Nat) (ha : as.length = n)
    (hb : bs.length = n) :
    (List.zipWith (· * ·) as bs).sum
      = ∑ j ∈ Finset.range n, as.getD j 0 * bs.getD j 0 := by
  subst ha
  induction as generalizing bs with
  | nil => simp
  | cons a tl ih =>
    cases bs with
    | nil => simp at hb
    | cons b tb =>
      simp only [List.zipWith_cons_cons, List.sum_cons, List.length_cons,
        Finset.sum_range_succ', List.getD_cons_succ, List.getD_cons_zero]
      rw [ih tb (by simpa using hb)]
      ring

/-- C2 counterexample: on the claimed 2x2 scenario, catchment C (cells 3 and
1 with coverages 1/4 and 1/4) aggregates to 30, not 35:
`(40*(1/4) + 20*(1/4)) / (1/2) = 30`. -/
theorem c2_scenario_c_is_30 :
    weighted_sum_of_cells [[10, 20, 30, 40]] [3, 1] [1 / 4, 1 / 4]
      = [IEEEVal.val 30] ∧ IEEEVal.val (30 : ℚ) ≠ IEEEVal.val 35 := by
  constructor
  · norm_num [weighted_sum_of_cells, cellGather, ieeeDiv]
  · simp only [ne_eq, IEEEVal.val.injEq]
    norm_num

/-- C2 (amended): for every catchment the per-timestep aggregate equals the
coverage-weighted mean `Σ value[t,cell]*coverage[cell] / Σ coverage`; on
the 2x2 single-timestep scenario the aggregates are A = 15, B = 30 and
C = 30 (not 35). -/
theorem c2_weighted_mean_amended (flatRaster : List (List ℚ))
    (cellIds : List Nat) (factors : List ℚ)
    (hlen : cellIds.length = factors.length) (hw : factors.sum ≠ 0) :
    (∀ t, ∀ ht : t < (weighted_sum_of_cells flatRaster cellIds
        factors).length,
      (weighted_sum_of_cells flatRaster cellIds factors).get ⟨t, ht⟩
        = IEEEVal.val ((∑ j ∈ Finset.range cellIds.length,
            (flatRaster.getD t []).getD (cellIds.getD j 0) 0 *
              factors.getD j 0) / factors.sum)) ∧
    weighted_sum_of_cells [[10, 20, 30, 40]] [0, 1] [1 / 2, 1 / 2]
      = [IEEEVal.val 15] ∧
    weighted_sum_of_cells [[10, 20, 30, 40]] [2] [1]
      = [IEEEVal.val 30] ∧
    weighted_sum_of_cells [[10, 20, 30, 40]] [3, 1] [1 / 4, 1 / 4]
      = [IEEEVal.val 30] := by
  refine ⟨?_, ?_, ?_, ?_⟩
  · intro t ht
    have htr : t < flatRaster.length := by
      simpa [weighted_sum_of_cells] using ht
    rw [List.get_eq_getElem]
    simp only [weighted_sum_of_cells, List.getElem_map]
    rw [ieeeDiv, if_neg hw]
    rw [zipWith_mul_sum_eq _ _ cellIds.length (by simp [cellGather])
      hlen.symm]
    rw [List.getD_eq_getElem flatRaster [] htr]
    congr 1
    congr 1
    refine Finset.sum_congr rfl ?_
    intro j hj
    have hjlt : j < cellIds.length := Finset.mem_range.mp hj
    congr 1
    rw [List.getD_eq_getElem _ 0 (by simp [cellGather, hjlt])]
    simp only [cellGather, List.getElem_map]
    rw [List.getD_eq_getElem _ 0 hjlt]
  · norm_num [weighted_sum_of_cells, cellGather, ieeeDiv]
  · norm_num [weighted_sum_of_cells, cellGather, ieeeDiv]
  · norm_num [weighted_sum_of_cells, cellGather, ieeeDiv]

/-- C2 witness: the amended formula evaluated on catchment A of the
scenario at timestep 0. -/
theorem c2_weighted_mean_witness :
    (∀ t, ∀ ht : t < (weighted_sum_of_cells [[10, 20, 30, 40]] [0, 1]
        [1 / 2, 1 / 2]).length,
      (weighted_sum_of_cells [[10, 20, 30, 40]] [0, 1]
          [1 / 2, 1 / 2]).get ⟨t, ht⟩
        = IEEEVal.val ((∑ j ∈ Finset.range ([0, 1] : List Nat).length,
            (([[10, 20, 30, 40]] : List (List ℚ)).getD t []).getD
              (([0, 1] : List Nat).getD j 0) 0 *
              ([1 / 2, 1 / 2] : List ℚ).getD j 0) /
            ([1 / 2, 1 / 2] : List ℚ).sum)) ∧
    weighted_sum_of_cells [[10, 20, 30, 40]] [0, 1] [1 / 2, 1 / 2]
      = [IEEEVal.val 15] ∧
    weighted_sum_of_cells [[10, 20, 30, 40]] [2] [1]
      = [IEEEVal.val 30] ∧
    weighted_sum_of_cells [[10, 20, 30, 40]] [3, 1] [1 / 4, 1 / 4]
      = [IEEEVal.val 30] :=
  c2_weighted_mean_amended [[10, 20, 30, 40]] [0, 1] [1 / 2, 1 / 2]
    (by norm_num) (by norm_num)

/-! ## C3: zero total coverage weight -/

/-- A list of nonnegative rationals summing to zero is all zeros. -/
lemma eq_zero_of_sum_zero_of_nonneg (l : List ℚ) (h0 : ∀ x ∈ l, 0 ≤ x)
    (hs : l.sum = 0) : ∀ x ∈ l, x = 0 := by
  induction l with
  | nil => simp
  | cons a tl ih =>
    have ha : 0 ≤ a := h0 a (by simp)
    have htl : 0 ≤ tl.sum :=
      List.sum_nonneg (fun x hx => h0 x (by simp [hx]))
    have hsum : a + tl.sum = 0 := by simpa using hs
    intro x hx
    rcases List.mem_cons.mp hx with rfl | hx
    · linarith
    · exact ih (fun y hy => h0 y (by simp [hy])) (by linarith) x hx

/-- Pairwise products against an all-zero factor list sum to zero. -/
lemma zipWith_mul_sum_zero (as bs : List ℚ) (hb : ∀ b ∈ bs, b = 0) :
    (List.zipWith (· * ·) as bs).sum = 0 := by
  induction as generalizing bs with
  | nil => simp
  | cons a tl ih =>
    cases bs with
    | nil => simp
    | cons b tb =>
      have hb0 : b = 0 := hb b (by simp)
      simp only [List.zipWith_cons_cons, List.sum_cons, hb0, mul_zero]
      rw [ih tb (fun y hy => hb y (by simp [hy]))]
      ring

/-- C3: a catchment whose coverage weights (all in `[0,1]`) sum to zero
yields the IEEE NaN sentinel at every timestep — numpy turns the division
by zero into `0/0 = NaN` with a warning, never an exception — and the
catchments around it in a partition are aggregated exactly as they would
be on their own. -/
theorem c3_zero_weight_nan (flatRaster : List (List ℚ))
    (c : CatchmentWeights) (hnn : ∀ w ∈ c.coverage, 0 ≤ w)
    (hzero : c.coverage.sum = 0) :
    (∀ v ∈ weighted_sum_of_cells flatRaster c.cell_ids c.coverage,
      v = IEEEVal.nan) ∧
    (∀ pre post : List CatchmentWeights,
      process_chunk_shared flatRaster (pre ++ c :: post)
        = process_chunk_shared flatRaster pre
          ++ (c.divide_id,
              weighted_sum_of_cells flatRaster c.cell_ids c.coverage)
            :: process_chunk_shared flatRaster post) := by
  constructor
  · intro v hv
    rcases List.mem_map.mp hv with ⟨row, _, hrow⟩
    have hall : ∀ b ∈ c.coverage, b = 0 :=
      eq_zero_of_sum_zero_of_nonneg c.coverage hnn hzero
    have hnum : (List.zipWith (· * ·) (cellGather row c.cell_ids)
        c.coverage).sum = 0 :=
      zipWith_mul_sum_zero _ _ hall
    rw [← hrow, hnum, hzero, ieeeDiv]
    simp
  · intro pre post
    simp [process_chunk_shared]

/-- C3 witness: a catchment with a single cell of coverage zero on a
one-timestep raster. -/
theorem c3_zero_weight_nan_witness :
    (∀ v ∈ weighted_sum_of_cells [[10, 20]]
        (CatchmentWeights.mk "cat-0" [0] [0]).cell_ids
        (CatchmentWeights.mk "cat-0" [0] [0]).coverage,
      v = IEEEVal.nan) ∧
    (∀ pre post : List CatchmentWeights,
      process_chunk_shared [[10, 20]]
          (pre ++ CatchmentWeights.mk "cat-0" [0] [0] :: post)
        = process_chunk_shared [[10, 20]] pre
          ++ ((CatchmentWeights.mk "cat-0" [0] [0]).divide_id,
              weighted_sum_of_cells [[10, 20]]
                (CatchmentWeights.mk "cat-0" [0] [0]).cell_ids
                (CatchmentWeights.mk "cat-0" [0] [0]).coverage)
            :: process_chunk_shared [[10, 20]] post) :=
  c3_zero_weight_nan [[10, 20]] (CatchmentWeights.mk "cat-0" [0] [0])
    (by norm_num) (by norm_num)

/-! ## C8: chunking invariance -/

/-- C8: the weighted-mean series of a catchment does not depend on how the
time axis was partitioned into chunks: concatenating the per-chunk series
in chunk-index order reproduces the unchunked series. -/
theorem c8_chunking_invariant (timeChunks : List (List (List ℚ)))
    (full : List (List ℚ)) (c : CatchmentWeights)
    (hjoin : timeChunks.flatten = full) :
    chunked_zonal_series timeChunks c
      = weighted_sum_of_cells full c.cell_ids c.coverage := by
  subst hjoin
  unfold chunked_zonal_series weighted_sum_of_cells
  exact (List.map_flatten _ _).symm

/-- C8 witness: a three-timestep raster split as 2 + 1 timesteps. -/
theorem c8_chunking_invariant_witness :
    chunked_zonal_series [[[1, 2], [3, 4]], [[5, 6]]]
        (CatchmentWeights.mk "cat-1" [0, 1] [1 / 2, 1 / 2])
      = weighted_sum_of_cells [[1, 2], [3, 4], [5, 6]]
          (CatchmentWeights.mk "cat-1" [0, 1] [1 / 2, 1 / 2]).cell_ids
          (CatchmentWeights.mk "cat-1" [0, 1] [1 / 2, 1 / 2]).coverage :=
  c8_chunking_invariant [[[1, 2], [3, 4]], [[5, 6]]]
    [[1, 2], [3, 4], [5, 6]]
    (CatchmentWeights.mk "cat-1" [0, 1] [1 / 2, 1 / 2]) rfl

/-! ## C10: `interpolate_nan_values` ignores its `variables` parameter -/

/-- Placeholder variable used as a `getD` default. -/
def defaultNCVar : String × NCVar := ("", NCVar.mk false [])

/-- C10: the `variables` parameter has no effect on the result; every
numeric variable containing a NaN is replaced by its interpolation (whether
listed or not), and every non-numeric or NaN-free variable is returned
unchanged. -/
theorem c10_interpolate_ignores_variable_list
    (interpNA : List (Option ℚ) → List (Option ℚ))
    (ds : List (String × NCVar)) (v1 v2 : Option (List String)) :
    interpolate_nan_values interpNA ds v1
      = interpolate_nan_values interpNA ds v2 ∧
    (interpolate_nan_values interpNA ds v1).length = ds.length ∧
    (∀ i, i < ds.length →
      ((¬ ((ds.getD i defaultNCVar).2.numeric = true ∧
          (ds.getD i defaultNCVar).2.vals.contains none = true)) →
        (interpolate_nan_values interpNA ds v1).getD i defaultNCVar
          = ds.getD i defaultNCVar)) ∧
    (∀ i, i < ds.length →
      (((ds.getD i defaultNCVar).2.numeric = true ∧
          (ds.getD i defaultNCVar).2.vals.contains none = true) →
        (interpolate_nan_values interpNA ds v1).getD i defaultNCVar
          = ((ds.getD i defaultNCVar).1,
             { (ds.getD i defaultNCVar).2 with
                vals := interpNA (ds.getD i defaultNCVar).2.vals }))) := by
  refine ⟨rfl, by simp [interpolate_nan_values], ?_, ?_⟩
  · intro i hi hcond
    have hlen : i < (interpolate_nan_values interpNA ds v1).length := by
      simpa [interpolate_nan_values] using hi
    rw [List.getD_eq_getElem _ defaultNCVar hi] at hcond
    rw [List.getD_eq_getElem _ defaultNCVar hlen,
      List.getD_eq_getElem _ defaultNCVar hi]
    simp only [interpolate_nan_values, List.getElem_map]
    have hb : ((ds[i]).2.numeric && (ds[i]).2.vals.contains none)
        = false := by
      cases h1 : (ds[i]).2.numeric <;>
        cases h2 : (ds[i]).2.vals.contains none <;> simp_all
    rw [if_neg (show ¬ (((ds[i]).2.numeric &&
        (ds[i]).2.vals.contains none) = true) by
      rw [hb]; exact Bool.false_ne_true)]
  · intro i hi hcond
    have hlen : i < (interpolate_nan_values interpNA ds v1).length := by
      simpa [interpolate_nan_values] using hi
    rw [List.getD_eq_getElem _ defaultNCVar hi] at hcond
    rw [List.getD_eq_getElem _ defaultNCVar hlen,
      List.getD_eq_getElem _ defaultNCVar hi]
    simp only [interpolate_nan_values, List.getElem_map]
    have hb : ((ds[i]).2.numeric && (ds[i]).2.vals.contains none)
        = true := by rw [hcond.1, hcond.2]; rfl
    rw [if_pos hb]

/-- C10 witness: a three-variable dataset (numeric with NaN, non-numeric,
numeric without NaN) under a concrete fill interpolation, with `variables`
given as `some ["a"]` versus `none`. -/
theorem c10_interpolate_ignores_variable_list_witness :
    interpolate_nan_values (fun l => l.map (fun o => some (o.getD 0)))
        [("a", NCVar.mk true [some 1, none]), ("b", NCVar.mk false [none]),
          ("c", NCVar.mk true [some 2])] (some ["a"])
      = interpolate_nan_values (fun l => l.map (fun o => some (o.getD 0)))
          [("a", NCVar.mk true [some 1, none]),
            ("b", NCVar.mk false [none]), ("c", NCVar.mk true [some 2])]
          none ∧
    (interpolate_nan_values (fun l => l.map (fun o => some (o.getD 0)))
        [("a", NCVar.mk true [some 1, none]), ("b", NCVar.mk false [none]),
          ("c", NCVar.mk true [some 2])] (some ["a"])).length
      = ([("a", NCVar.mk true [some 1, none]),
          ("b", NCVar.mk false [none]),
          ("c", NCVar.mk true [some 2])] : List (String × NCVar)).length ∧
    (∀ i, i < ([("a", NCVar.mk true [some 1, none]),
        ("b", NCVar.mk false [none]),
        ("c", NCVar.mk true [some 2])] : List (String × NCVar)).length →
      ((¬ ((([("a", NCVar.mk true [some 1, none]),
            ("b", NCVar.mk false [none]),
            ("c", NCVar.mk true [some 2])] : List (String × NCVar)).getD i
              defaultNCVar).2.numeric = true ∧
          (([("a", NCVar.mk true [some 1, none]),
            ("b", NCVar.mk false [none]),
            ("c", NCVar.mk true [some 2])] : List (String × NCVar)).getD i
              defaultNCVar).2.vals.contains none = true)) →
        (interpolate_nan_values (fun l => l.map (fun o => some (o.getD 0)))
            [("a", NCVar.mk true [some 1, none]),
              ("b", NCVar.mk false [none]),
              ("c", NCVar.mk true [some 2])] (some ["a"])).getD i
            defaultNCVar
          = ([("a", NCVar.mk true [some 1, none]),
              ("b", NCVar.mk false [none]),
              ("c", NCVar.mk true [some 2])] :
                List (String × NCVar)).getD i defaultNCVar)) ∧
    (∀ i, i < ([("a", NCVar.mk true [some 1, none]),
        ("b", NCVar.mk false [none]),
        ("c", NCVar.mk true [some 2])] : List (String × NCVar)).length →
      (((([("a", NCVar.mk true [some 1, none]),
            ("b", NCVar.mk false [none]),
            ("c", NCVar.mk true [some 2])] : List (String × NCVar)).getD i
              defaultNCVar).2.numeric = true ∧
          (([("a", NCVar.mk true [some 1, none]),
            ("b", NCVar.mk false [none]),
            ("c", NCVar.mk true [some 2])] : List (String × NCVar)).getD i
              defaultNCVar).2.vals.contains none = true) →
        (interpolate_nan_values (fun l => l.map (fun o => some (o.getD 0)))
            [("a", NCVar.mk true [some 1, none]),
              ("b", NCVar.mk false [none]),
              ("c", NCVar.mk true [some 2])] (some ["a"])).getD i
            defaultNCVar
          = ((([("a", NCVar.mk true [some 1, none]),
                ("b", NCVar.mk false [none]),
                ("c", NCVar.mk true [some 2])] :
                  List (String × NCVar)).getD i defaultNCVar).1,
             { (([("a", NCVar.mk true [some 1, none]),
                  ("b", NCVar.mk false [none]),
                  ("c", NCVar.mk true [some 2])] :
                    List (String × NCVar)).getD i defaultNCVar).2 with
                vals := (fun l => l.map (fun o => some (o.getD 0)))
                  ((([("a", NCVar.mk true [some 1, none]),
                      ("b", NCVar.mk false [none]),
                      ("c", NCVar.mk true [some 2])] :
                        List (String × NCVar)).getD i
                          defaultNCVar).2.vals) }))) :=
  c10_interpolate_ignores_variable_list
    (fun l => l.map (fun o => some (o.getD 0)))
    [("a", NCVar.mk true [some 1, none]), ("b", NCVar.mk false [none]),
      ("c", NCVar.mk true [some 2])] (some ["a"]) none

/-! ## C4: cache invalidation -/

set_option maxRecDepth 2048

/-- Any failed validation check makes `check_local_cache` return `None`. -/
lemma check_local_cache_invalid_none (c remote : DsMeta) (reqS reqE : Int)
    (hfail : c.name = none ∨ remote.name = none ∨ c.name ≠ remote.name
      ∨ ¬ (c.tStart ≤ reqS ∧ reqE ≤ c.tEnd)
      ∨ (remote.vars.filter (fun v => ¬ c.vars.contains v)) ≠ []) :
    check_local_cache (some c) reqS reqE remote = none := by
  simp only [check_local_cache]
  by_cases h1 : (c.name.isNone || remote.name.isNone) = true
  · rw [if_pos h1]
  · rw [if_neg h1]
    by_cases h2 : c.name ≠ remote.name
    · rw [if_pos h2]
    · rw [if_neg h2]
      by_cases h3 : ¬ (c.tStart ≤ reqS ∧ reqE ≤ c.tEnd)
      · rw [if_pos h3]
      · rw [if_neg h3]
        by_cases h4 : (remote.vars.filter
            (fun v => ¬ c.vars.contains v)) ≠ []
        · rw [if_pos h4]
        · exfalso
          rcases hfail with h | h | h | h | h
          · exact absurd (by simp [h] : (c.name.isNone ||
              remote.name.isNone) = true) h1
          · exact absurd (by simp [h] : (c.name.isNone ||
              remote.name.isNone) = true) h1
          · exact h2 h
          · exact h3 h
          · exact h4 h

/-- Appending a non-empty suffix changes a string. -/
lemma append_saving_ne (s : String) : s ++ ".saving.nc" ≠ s := by
  intro h
  have hlen := congrArg String.length h
  rw [String.length_append] at hlen
  have h10 : (".saving.nc" : String).length = 10 := rfl
  omega

/-- C4 counterexample: a cache file whose `name` attribute differs from the
remote source is invalidated by `check_local_cache`, but the function
performs no file deletion, and the ensuing refetch in
`save_and_clip_dataset` overwrites the cache by atomic rename without ever
removing the stale file: `delete file` does not happen on this path. -/
theorem c4_name_mismatch_not_deleted :
    check_local_cache
        (some (DsMeta.mk (some "aorc") 0 100 ["LWDOWN"])) 10 20
        (DsMeta.mk (some "nwm") 0 100 ["LWDOWN"]) = none ∧
    (save_and_clip_dataset
        (some (DsMeta.mk (some "aorc") 0 100 ["LWDOWN"])) 10 20
        (DsMeta.mk (some "nwm") 0 100 ["LWDOWN"]) "cache.nc" false).1
      = CacheOutcome.refetched (10, 20) ∧
    FileOp.removeFile "cache.nc"
      ∉ (save_and_clip_dataset
          (some (DsMeta.mk (some "aorc") 0 100 ["LWDOWN"])) 10 20
          (DsMeta.mk (some "nwm") 0 100 ["LWDOWN"]) "cache.nc" false).2 := by
  refine ⟨by decide, by decide, by decide⟩

/-- C4 (amended): any failed validation check (source name mismatch or
absent, requested range not covered, or missing variables) invalidates the
cache and triggers a full refetch, never a patch: `check_local_cache`
returns `None` and its caller refetches the clipped remote data —
overwriting the cache file by atomic rename without deleting it first —
while `get_forcing_data` (which checks range and variables, not the name)
does delete the cache file before refetching. -/
theorem c4_cache_invalidation_amended (c remote store : DsMeta)
    (reqS reqE : Int) (forcingVars : List String) (cachePath : String)
    (tmpExists : Bool)
    (hfail : c.name = none ∨ remote.name = none ∨ c.name ≠ remote.name
      ∨ ¬ (c.tStart ≤ reqS ∧ reqE ≤ c.tEnd)
      ∨ (remote.vars.filter (fun v => ¬ c.vars.contains v)) ≠ []) :
    check_local_cache (some c) reqS reqE remote = none ∧
    (save_and_clip_dataset (some c) reqS reqE remote cachePath
        tmpExists).1
      = CacheOutcome.refetched
          (clip_time_range remote.tStart remote.tEnd reqS reqE) ∧
    FileOp.renameFile (cachePath ++ ".saving.nc") cachePath
      ∈ (save_and_clip_dataset (some c) reqS reqE remote cachePath
          tmpExists).2 ∧
    FileOp.removeFile cachePath
      ∉ (save_and_clip_dataset (some c) reqS reqE remote cachePath
          tmpExists).2 ∧
    ((¬ ((c.tStart ≤ reqS ∧ reqE ≤ c.tEnd) ∧
        (forcingVars.isEmpty = true ∨ (forcingVars.filter (fun v =>
          ¬ (normalizeCachedVars c.vars).contains v)).isEmpty = true))) →
      (get_forcing_data (some c) store reqS reqE
          forcingVars).removedCache = true ∧
      (get_forcing_data (some c) store reqS reqE
          forcingVars).refetched = true) := by
  have hnone := check_local_cache_invalid_none c remote reqS reqE hfail
  refine ⟨hnone, ?_, ?_, ?_, ?_⟩
  · simp [save_and_clip_dataset, hnone]
  · simp [save_and_clip_dataset, hnone, save_dataset_ops]
  · have hne := append_saving_ne cachePath
    have hne2 : cachePath ≠ cachePath ++ ".saving.nc" := fun h => hne h.symm
    cases tmpExists <;>
      simp [save_and_clip_dataset, hnone, save_dataset_ops, hne, hne2]
  · intro hgf
    simp only [get_forcing_data]
    split
    · rename_i hok
      exfalso
      apply hgf
      simp only [Bool.and_eq_true, decide_eq_true_eq,
        Bool.or_eq_true] at hok
      exact ⟨hok.1, hok.2⟩
    · exact ⟨rfl, rfl⟩

/-- C4 witness: the spec's staleness scenario — a cache covering
2020-01-01 to 2020-06-01 requested against 2019-12-01 to 2020-06-01
(dates encoded as yyyymmdd integers) is treated as stale and fully
refetched from the remote store, and `get_forcing_data` deletes it. -/
theorem c4_cache_invalidation_witness :
    check_local_cache
        (some (DsMeta.mk (some "nwm") 20200101 20200601 ["LWDOWN"]))
        20191201 20200601
        (DsMeta.mk (some "nwm") 20100101 20231231 ["LWDOWN"]) = none ∧
    (save_and_clip_dataset
        (some (DsMeta.mk (some "nwm") 20200101 20200601 ["LWDOWN"]))
        20191201 20200601
        (DsMeta.mk (some "nwm") 20100101 20231231 ["LWDOWN"])
        "cache.nc" false).1
      = CacheOutcome.refetched
          (clip_time_range 20100101 20231231 20191201 20200601) ∧
    FileOp.renameFile ("cache.nc" ++ ".saving.nc") "cache.nc"
      ∈ (save_and_clip_dataset
          (some (DsMeta.mk (some "nwm") 20200101 20200601 ["LWDOWN"]))
          20191201 20200601
          (DsMeta.mk (some "nwm") 20100101 20231231 ["LWDOWN"])
          "cache.nc" false).2 ∧
    FileOp.removeFile "cache.nc"
      ∉ (save_and_clip_dataset
          (some (DsMeta.mk (some "nwm") 20200101 20200601 ["LWDOWN"]))
          20191201 20200601
          (DsMeta.mk (some "nwm") 20100101 20231231 ["LWDOWN"])
          "cache.nc" false).2 ∧
    ((¬ ((20200101 ≤ (20191201 : Int) ∧ (20200601 : Int) ≤ 20200601) ∧
        ((["LWDOWN"] : List String).isEmpty = true ∨
          ((["LWDOWN"] : List String).filter (fun v =>
            ¬ (normalizeCachedVars ["LWDOWN"]).contains v)).isEmpty
              = true))) →
      (get_forcing_data
          (some (DsMeta.mk (some "nwm") 20200101 20200601 ["LWDOWN"]))
          (DsMeta.mk (some "nwm") 20100101 20231231 ["LWDOWN"])
          20191201 20200601 ["LWDOWN"]).removedCache = true ∧
      (get_forcing_data
          (some (DsMeta.mk (some "nwm") 20200101 20200601 ["LWDOWN"]))
          (DsMeta.mk (some "nwm") 20100101 20231231 ["LWDOWN"])
          20191201 20200601 ["LWDOWN"]).refetched = true) :=
  c4_cache_invalidation_amended
    (DsMeta.mk (some "nwm") 20200101 20200601 ["LWDOWN"])
    (DsMeta.mk (some "nwm") 20100101 20231231 ["LWDOWN"])
    (DsMeta.mk (some "nwm") 20100101 20231231 ["LWDOWN"])
    20191201 20200601 ["LWDOWN"] "cache.nc" false (by decide)

/-! ## C5: returned time range vs the request -/

/-- `clip_dataset_to_bounds` in closed interval form. -/
lemma clip_time_range_eq (d0 d1 s e : Int) :
    clip_time_range d0 d1 s e = (max d0 s, min d1 e) := by
  unfold clip_time_range validate_time_range
  by_cases h1 : s < d0 <;> by_cases h2 : e > d1 <;>
    simp [h1, h2, Prod.ext_iff] <;> omega

/-- C5 counterexample: with no cache and a remote store available only on
`[10, 20]`, the request `[5, 25]` yields the dataset on `[10, 20]`, which
does not cover the request. -/
theorem c5_request_beyond_store_not_covered :
    ¬ ((get_forcing_data none (DsMeta.mk (some "nwm") 10 20 []) 5 25
          []).outStart ≤ 5 ∧
       25 ≤ (get_forcing_data none (DsMeta.mk (some "nwm") 10 20 []) 5 25
          []).outEnd) := by
  decide

/-- C5 (amended): `get_forcing_data` returns a dataset covering the request
clamped to the remote store's available time range; in particular, whenever
the store's range covers the request, the returned dataset covers the
request itself. -/
theorem c5_covers_clamped_request (cache : Option DsMeta) (store : DsMeta)
    (reqS reqE : Int) (fv : List String) :
    (get_forcing_data cache store reqS reqE fv).outStart
        ≤ max store.tStart reqS ∧
      min store.tEnd reqE
        ≤ (get_forcing_data cache store reqS reqE fv).outEnd ∧
      (store.tStart ≤ reqS → reqE ≤ store.tEnd →
        (get_forcing_data cache store reqS reqE fv).outStart ≤ reqS ∧
          reqE ≤ (get_forcing_data cache store reqS reqE fv).outEnd) := by
  cases cache with
  | none =>
    simp only [get_forcing_data, clip_time_range_eq]
    refine ⟨le_refl _, le_refl _, fun h1 h2 => ⟨?_, ?_⟩⟩ <;> omega
  | some c =>
    by_cases hp : c.tStart ≤ reqS ∧ reqE ≤ c.tEnd
    · have hpd : decide (c.tStart ≤ reqS ∧ reqE ≤ c.tEnd) = true :=
        decide_eq_true hp
      simp only [get_forcing_data, hpd, not_true, Bool.true_and]
      rw [if_neg not_false]
      by_cases hv : (fv.isEmpty ||
          (fv.filter (fun v =>
            ¬ (normalizeCachedVars c.vars).contains v)).isEmpty) = true
      · rw [if_pos hv]
        simp only [clip_time_range_eq]
        refine ⟨?_, ?_, fun h1 h2 => ⟨?_, ?_⟩⟩ <;> omega
      · rw [if_neg hv]
        simp only [clip_time_range_eq]
        refine ⟨?_, ?_, fun h1 h2 => ⟨?_, ?_⟩⟩ <;> omega
    · have hpd : decide (c.tStart ≤ reqS ∧ reqE ≤ c.tEnd) = false :=
        decide_eq_false hp
      simp only [get_forcing_data, hpd, Bool.false_and]
      rw [if_pos Bool.false_ne_true, if_neg Bool.false_ne_true]
      simp only [validate_time_range, clip_time_range_eq]
      refine ⟨?_, ?_, fun h1 h2 => ⟨?_, ?_⟩⟩ <;>
        (repeat' split) <;> omega

/-- C5 witness: with no cache, a store available on `[0, 100]` and the
request `[10, 20]` inside it, the returned range covers the request. -/
theorem c5_covers_clamped_request_witness :
    (get_forcing_data none (DsMeta.mk (some "nwm") 0 100 []) 10 20
        []).outStart ≤ max 0 10 ∧
      min 100 20 ≤ (get_forcing_data none (DsMeta.mk (some "nwm") 0 100 [])
        10 20 []).outEnd ∧
      ((get_forcing_data none (DsMeta.mk (some "nwm") 0 100 []) 10 20
          []).outStart ≤ 10 ∧
        20 ≤ (get_forcing_data none (DsMeta.mk (some "nwm") 0 100 []) 10 20
          []).outEnd) :=
  ⟨(c5_covers_clamped_request none (DsMeta.mk (some "nwm") 0 100 []) 10 20
      []).1,
   (c5_covers_clamped_request none (DsMeta.mk (some "nwm") 0 100 []) 10 20
      []).2.1,
   (c5_covers_clamped_request none (DsMeta.mk (some "nwm") 0 100 []) 10 20
      []).2.2 (by decide) (by decide)⟩

/-! ## C6: shared-memory release -/

/-- C6 counterexample: when `pool.map` raises, the chunk trace contains no
`unlink` — the shared-memory region outlives the chunk's processing. -/
theorem c6_shm_leaked_on_worker_error :
    ShmEvent.unlinkShm ∉ process_one_chunk_events false true := by
  decide

/-- C6 (amended): on the normal path the creator closes and unlinks the
region after the workers finish (both release calls occur after
`pool.map` returns); on either error path — staging copy failure or a
worker-pool exception — the release calls are skipped entirely. -/
theorem c6_shm_release_amended :
    (ShmEvent.closeShm ∈ process_one_chunk_events false false ∧
     ShmEvent.unlinkShm ∈ process_one_chunk_events false false ∧
     List.indexOf ShmEvent.mapWorkers (process_one_chunk_events false false)
       < List.indexOf ShmEvent.closeShm
           (process_one_chunk_events false false) ∧
     List.indexOf ShmEvent.closeShm (process_one_chunk_events false false)
       < List.indexOf ShmEvent.unlinkShm
           (process_one_chunk_events false false)) ∧
    (ShmEvent.closeShm ∉ process_one_chunk_events true false ∧
     ShmEvent.unlinkShm ∉ process_one_chunk_events true false) ∧
    (ShmEvent.closeShm ∉ process_one_chunk_events false true ∧
     ShmEvent.unlinkShm ∉ process_one_chunk_events false true) := by
  decide

/-! ## C7: atomic-rename discipline -/

/-- Lookups at a key other than the filtered-out one are unchanged. -/
lemma lookup_filter_ne (fs : FS) (p q : String) (h : q ≠ p) :
    List.lookup q (fs.filter (fun r => r.1 ≠ p)) = List.lookup q fs := by
  induction fs with
  | nil => rfl
  | cons a tl ih =>
    rcases a with ⟨k, v⟩
    rw [List.filter_cons]
    by_cases hap : k = p
    · rw [if_neg (by simp [hap])]
      rw [ih, List.lookup_cons]
      have h2 : (q == k) = false := by simp [hap, h]
      rw [h2]
    · rw [if_pos (by simp [hap])]
      rw [List.lookup_cons, List.lookup_cons, ih]

/-- Writing `p` makes `p` hold the written completeness flag. -/
lemma lookupFile_setFile_self (fs : FS) (p : String) (b : Bool) :
    lookupFile (setFile fs p b) p = some b := by
  simp [lookupFile, setFile, List.lookup]

/-- Writing `p` leaves other paths unchanged. -/
lemma lookupFile_setFile_ne (fs : FS) (p q : String) (b : Bool)
    (h : q ≠ p) :
    lookupFile (setFile fs p b) q = lookupFile fs q := by
  simp only [lookupFile, setFile, List.lookup]
  have : (q == p) = false := by simp [h]
  rw [this]
  exact lookup_filter_ne fs p q h

/-- Deleting `p` leaves other paths unchanged. -/
lemma lookupFile_delFile_ne (fs : FS) (p q : String) (h : q ≠ p) :
    lookupFile (delFile fs p) q = lookupFile fs q := by
  simp only [lookupFile, delFile]
  exact lookup_filter_ne fs p q h

/-- Crash states of `write tmp; rename tmp target` never expose a partial
file under the target name. -/
lemma write_rename_midstates_safe (fs : FS) (cachePath tmpPath : String)
    (hneq : cachePath ≠ tmpPath)
    (hinit : lookupFile fs cachePath ≠ some false) :
    ∀ s ∈ midStates fs [FileOp.writeFile tmpPath,
        FileOp.renameFile tmpPath cachePath],
      lookupFile s cachePath ≠ some false := by
  intro s hs
  simp only [midStates, runOp, lookupFile_setFile_self, List.cons_append,
    List.nil_append, List.mem_cons, List.mem_singleton, List.not_mem_nil,
    or_false] at hs
  rcases hs with rfl | rfl | rfl | rfl
  · exact hinit
  · rw [lookupFile_setFile_ne _ _ _ _ hneq]
    exact hinit
  · rw [lookupFile_setFile_ne _ _ _ _ hneq]
    exact hinit
  · rw [lookupFile_setFile_self]
    simp

/-- C7 counterexample: `write_outputs` writes `forcings.nc` directly (no
temporary path, no rename), so a crash mid-write exposes a partial file
under the final name. -/
theorem c7_partial_final_output_observable :
    setFile [] "forcings.nc" false
      ∈ midStates [] (write_outputs_ops "forcings.nc" ["LWDOWN.nc"]) ∧
    lookupFile (setFile [] "forcings.nc" false) "forcings.nc"
      = some false := by
  constructor
  · simp [midStates, write_outputs_ops, runOp]
  · rfl

/-- C7 (amended): the cache write (`compute_store`) follows the
temp-write-then-atomic-rename discipline — no crash state exposes a
partial file under the cache's real name — but the final output artifact
is written directly to its final name and is not crash-safe. -/
theorem c7_cache_write_atomic_amended (fs0 : FS)
    (cachePath tmpPath : String) (hneq : cachePath ≠ tmpPath)
    (hinit : lookupFile fs0 cachePath ≠ some false) :
    ∀ s ∈ midStates fs0 (compute_store_ops fs0 cachePath tmpPath),
      lookupFile s cachePath ≠ some false := by
  intro s hs
  unfold compute_store_ops at hs
  by_cases htmp : (lookupFile fs0 tmpPath).isSome = true
  · rw [if_pos htmp] at hs
    simp only [List.cons_append, List.nil_append, midStates, runOp,
      List.mem_cons] at hs
    rcases hs with rfl | hs
    · exact hinit
    · refine write_rename_midstates_safe (delFile fs0 tmpPath) cachePath
        tmpPath hneq ?_ s (by simpa [midStates] using hs)
      rw [lookupFile_delFile_ne _ _ _ hneq]
      exact hinit
  · rw [if_neg htmp] at hs
    simp only [List.nil_append] at hs
    exact write_rename_midstates_safe fs0 cachePath tmpPath hneq hinit s hs

/-- C7 witness: the cache-atomicity theorem on an empty file system with
the real temp-file naming of `compute_store`, evaluated at the crash state
in which the temp file is half-written: the cache path holds no partial
file there. -/
theorem c7_cache_write_atomic_witness :
    lookupFile (setFile [] "cache.downloading.nc" false) "cache.nc"
      ≠ some false :=
  c7_cache_write_atomic_amended [] "cache.nc" "cache.downloading.nc"
    (by decide) (by decide)
    (setFile [] "cache.downloading.nc" false) (by decide)

/-! ## C9: legacy output layout -/

/-- C9: whenever the merged data contains the precipitation variable, every
variable has a units entry, and the per-variable matrices are rectangular
`(catchment, time)`, the artifact written by `write_outputs` has the legacy
layout: `ids` is the 1-D string array of catchment identifiers, `Time` is a
2-D `(catchment, time)` int32 array of seconds since epoch in which every
row is identical, and every data variable (the renamed forcing variables
plus the derived `APCP_surface`) is a 2-D `(catchment, time)` float32
matrix carrying a `units` attribute. -/
theorem c9_legacy_output_layout (mergedVars : List (String × List (List ℚ)))
    (units : List (String × String)) (catchments : List String)
    (timesNs : List Int)
    (hrain : "RAINRATE" ∈ mergedVars.map Prod.fst)
    (hunits : ∀ nv ∈ mergedVars, (units.lookup nv.1).isSome = true)
    (hrect : ∀ nv ∈ mergedVars, nv.2.length = catchments.length ∧
      ∀ row ∈ nv.2, row.length = timesNs.length) :
    ∃ out, write_outputs mergedVars units catchments timesNs = some out ∧
      out.idsDtype = DType.strT ∧ out.ids = catchments ∧
      out.timeDtype = DType.i32 ∧ out.timeUnits = "s" ∧
      out.timeVals.length = catchments.length ∧
      (∀ row ∈ out.timeVals,
        row = timesNs.map (fun t => int32wrap (Int.fdiv t (10 ^ 9)))) ∧
      (∀ r1 ∈ out.timeVals, ∀ r2 ∈ out.timeVals, r1 = r2) ∧
      (∀ v ∈ out.dataVars, v.dtype = DType.f32 ∧ v.units.isSome = true ∧
        v.vals.length = catchments.length ∧
        ∀ row ∈ v.vals, row.length = timesNs.length) := by
  classical
  obtain ⟨nv, hnv, hname⟩ := List.mem_map.mp hrain
  set g : String × List (List ℚ) → OutVar := fun nv =>
    { name := (renameTable.lookup nv.1).getD nv.1, dtype := DType.f64,
      units := units.lookup nv.1, vals := nv.2 } with hg
  have hvars1 : (mergedVars.map (fun nv =>
      { name := nv.1, dtype := DType.f64, units := units.lookup nv.1,
        vals := nv.2 : OutVar })).map (fun v =>
          { v with name := (renameTable.lookup v.name).getD v.name })
        = mergedVars.map g := by
    rw [List.map_map]
    rfl
  have hmem1 : g nv ∈ mergedVars.map g := List.mem_map_of_mem g hnv
  have hgname : (g nv).name = "precip_rate" := by
    rw [hg]
    show (List.lookup nv.1 renameTable).getD nv.1 = "precip_rate"
    rw [hname]
    rfl
  have hvars1props : ∀ w ∈ mergedVars.map g, w.units.isSome = true ∧
      w.vals.length = catchments.length ∧
      ∀ row ∈ w.vals, row.length = timesNs.length := by
    intro w hw
    obtain ⟨mv, hmv, rfl⟩ := List.mem_map.mp hw
    exact ⟨hunits mv hmv, (hrect mv hmv).1, (hrect mv hmv).2⟩
  have hfind : ((mergedVars.map g).find?
      (fun v => v.name = "precip_rate")).isSome = true := by
    rw [List.find?_isSome]
    exact ⟨g nv, hmem1, decide_eq_true hgname⟩
  obtain ⟨precip, hprecip⟩ := Option.isSome_iff_exists.mp hfind
  have hprecipmem : precip ∈ mergedVars.map g :=
    List.mem_of_find?_eq_some hprecip
  refine ⟨{ ids := catchments, idsDtype := DType.strT,
            timeVals := List.replicate catchments.length
              (timesNs.map (fun t => int32wrap (Int.fdiv t (10 ^ 9)))),
            timeDtype := DType.i32, timeUnits := "s",
            dataVars := ((mergedVars.map g) ++
              [OutVar.mk "APCP_surface" DType.f64 (some "mm h^-1")
                (precip.vals.map
                  (fun row => row.map (fun q => q * 3600)))]).map
                (fun v => { v with dtype := DType.f32 }) },
    ?_, rfl, rfl, rfl, rfl, ?_, ?_, ?_, ?_⟩
  · simp only [write_outputs, hvars1, hprecip]
  · simp
  · intro row hrow
    exact List.eq_of_mem_replicate hrow
  · intro r1 h1 r2 h2
    rw [List.eq_of_mem_replicate h1, List.eq_of_mem_replicate h2]
  · intro v hv
    simp only [List.map_append, List.mem_append, List.mem_map,
      List.map_cons, List.map_nil, List.mem_singleton] at hv
    rcases hv with ⟨w, hw, rfl⟩ | rfl
    · obtain ⟨hu, hl, hr⟩ := hvars1props w (List.mem_map.mpr hw)
      exact ⟨rfl, hu, hl, hr⟩
    · obtain ⟨hu, hl, hr⟩ := hvars1props precip hprecipmem
      refine ⟨rfl, rfl, ?_, ?_⟩
      · simpa using hl
      · intro row hrow
        simp only [List.mem_map] at hrow
        obtain ⟨prow, hprow, rfl⟩ := hrow
        simpa using hr prow hprow

/-- C9 witness: one variable (`RAINRATE`), two catchments, two timesteps
at 1 ns and 2500000000 ns since epoch. -/
theorem c9_legacy_output_layout_witness :
    ∃ out, write_outputs [("RAINRATE", [[1, 2], [3, 4]])]
        [("RAINRATE", "mm s^-1")] ["cat-1", "cat-2"] [1, 2500000000]
        = some out ∧
      out.idsDtype = DType.strT ∧ out.ids = ["cat-1", "cat-2"] ∧
      out.timeDtype = DType.i32 ∧ out.timeUnits = "s" ∧
      out.timeVals.length = (["cat-1", "cat-2"] : List String).length ∧
      (∀ row ∈ out.timeVals,
        row = ([1, 2500000000] : List Int).map
          (fun t => int32wrap (Int.fdiv t (10 ^ 9)))) ∧
      (∀ r1 ∈ out.timeVals, ∀ r2 ∈ out.timeVals, r1 = r2) ∧
      (∀ v ∈ out.dataVars, v.dtype = DType.f32 ∧ v.units.isSome = true ∧
        v.vals.length = (["cat-1", "cat-2"] : List String).length ∧
        ∀ row ∈ v.vals,
          row.length = ([1, 2500000000] : List Int).length) :=
  c9_legacy_output_layout [("RAINRATE", [[1, 2], [3, 4]])]
    [("RAINRATE", "mm s^-1")] ["cat-1", "cat-2"] [1, 2500000000]
    (by simp) (by simp) (by norm_num)

end NGIAB
